import Mathlib

/-
  Verification of the QUIC connection-driver layer (gateway/quic, gateway/quic2).

  A shallow embedding of the Rust sources: bytes are `Nat`, buffers are
  `List Nat`, the DashMap indices are association lists, channel/locking
  effects are made explicit as state fields and oracle parameters.
-/

set_option maxRecDepth 4096

/-! ## Buffer pool with margins (src/gateway/quic/utils.rs) -/

/-- Caller-supplied reserved byte counts around each outbound datagram
(`BufMargins` in utils.rs). -/
structure BufMargins where
  header : Nat
  trailer : Nat
deriving DecidableEq

/-- Total reserved bytes (`BufMargins::len`). -/
def BufMargins.len (m : BufMargins) : Nat := m.header + m.trailer

/-- Margin-aware byte pool (`BufPool` in utils.rs).  The `pool` list models the
initialised capacity of the underlying `BytesMut` arena; after every call the
arena's length equals its capacity, so a single list suffices. -/
structure BufPool where
  pool : List Nat
  minCapacity : Nat
deriving DecidableEq

/-- Write `data` into `buf` starting at `start`, the effect of
`buf[start..start+data.len()].copy_from_slice(data)`. -/
def listWrite (buf : List Nat) (start : Nat) (data : List Nat) : List Nat :=
  buf.take start ++ data ++ buf.drop (start + data.length)

/-- `BufPool::buf` (utils.rs lines 78-94).  `len = margins.len() + data.len()`;
if the arena is too small it is grown by `max (len * 4) min_capacity` freshly
exposed bytes (the contents of the growth are unspecified, modelled by the
`junk` parameter); then the first `len` bytes are split off and the middle
region is overwritten with `data`. -/
def BufPool.buf (p : BufPool) (data : List Nat) (m : BufMargins) (junk : List Nat) :
    List Nat × BufPool :=
  let len := m.len + data.length
  let pool := if p.pool.length < len then p.pool ++ junk else p.pool
  let b := pool.take len
  (listWrite b m.header data, { p with pool := pool.drop len })

/-! ## Transmit accumulator layout (`BufAcc`, utils.rs lines 96-170, and the
send phase of Runner::run, runner.rs lines 118-182).

`BufAcc::buf` hands the protocol core a write cursor placed `margins.header`
bytes past the current end of the accumulator; `BufAccWriter::commit` then
advances the accumulator by `margins.len() + written` bytes.  So each committed
transmit occupies a contiguous segment `hdrJunk ++ payload ++ trlJunk` of the
chunk, where `hdrJunk`/`trlJunk` are the reserved (uninitialised) margin bytes
and `payload` is exactly what the core wrote (`written = transmit.size`). -/

/-- One committed transmit segment inside an accumulator chunk. -/
structure TransmitSeg where
  hdrJunk : List Nat
  payload : List Nat
  trlJunk : List Nat
deriving DecidableEq

/-- The byte region a committed transmit occupies in the chunk. -/
def TransmitSeg.flat (t : TransmitSeg) : List Nat :=
  t.hdrJunk ++ t.payload ++ t.trlJunk

/-- A sealed accumulator chunk: the concatenation of its committed segments. -/
def buildChunk (ts : List TransmitSeg) : List Nat :=
  ts.foldr (fun t acc => t.flat ++ acc) []

/-- The egress loop (runner.rs lines 162-182): for each pending transmit of
payload size `s` it pops `chunk.split_to(header + s + trailer)` off the front
of the current chunk and emits it as one packet. -/
def emitLoop (header trailer : Nat) (sizes : List Nat) (chunk : List Nat) :
    List (List Nat) :=
  match sizes with
  | [] => []
  | s :: rest =>
      chunk.take (header + s + trailer) ::
        emitLoop header trailer rest (chunk.drop (header + s + trailer))

/-- Segments are well formed for the configured margins: every committed
segment reserves exactly `header` bytes in front and `trailer` behind. -/
def goodSegs (header trailer : Nat) (ts : List TransmitSeg) : Prop :=
  ∀ t ∈ ts, t.hdrJunk.length = header ∧ t.trlJunk.length = trailer

theorem emitLoop_eq_flat (header trailer : Nat) (ts : List TransmitSeg)
    (h : goodSegs header trailer ts) :
    emitLoop header trailer (ts.map fun t => t.payload.length) (buildChunk ts)
      = ts.map TransmitSeg.flat := by
  induction ts with
  | nil => rfl
  | cons t rest ih =>
      obtain ⟨hh, ht⟩ := h t (List.mem_cons_self t rest)
      have hrest : goodSegs header trailer rest := fun u hu => h u (List.mem_cons_of_mem t hu)
      have hlen : t.flat.length = header + t.payload.length + trailer := by
        simp [TransmitSeg.flat, hh, ht]; omega
      have hchunk : buildChunk (t :: rest) = t.flat ++ buildChunk rest := rfl
      simp only [List.map_cons, emitLoop, hchunk]
      rw [show header + t.payload.length + trailer = t.flat.length by omega]
      rw [List.take_left, List.drop_left]
      exact congrArg _ (ih hrest)

theorem flat_middle (header trailer : Nat) (t : TransmitSeg)
    (hh : t.hdrJunk.length = header) (ht : t.trlJunk.length = trailer) :
    t.flat.length = header + t.payload.length + trailer ∧
      (t.flat.drop header).take t.payload.length = t.payload := by
  constructor
  · simp [TransmitSeg.flat, hh, ht]; omega
  · have : t.flat.drop header = t.payload ++ t.trlJunk := by
      unfold TransmitSeg.flat
      rw [List.append_assoc]
      exact List.drop_left' hh
    rw [this, List.take_left]

theorem listWrite_spec (b : List Nat) (header : Nat) (data : List Nat) (trailer : Nat)
    (hb : b.length = header + data.length + trailer) :
    (listWrite b header data).length = header + data.length + trailer ∧
    ((listWrite b header data).drop header).take data.length = data := by
  have hth : (b.take header).length = header := by
    simp only [List.length_take]
    omega
  constructor
  · simp only [listWrite, List.length_append, List.length_take, List.length_drop]
    omega
  · unfold listWrite
    rw [List.append_assoc, List.drop_left' hth, List.take_left]

theorem bufPool_buf_spec (p : BufPool) (data junk : List Nat) (m : BufMargins)
    (hj : junk.length = max ((m.len + data.length) * 4) p.minCapacity) :
    (BufPool.buf p data m junk).1.length = m.header + data.length + m.trailer ∧
    ((BufPool.buf p data m junk).1.drop m.header).take data.length = data := by
  have hpool :
      m.len + data.length ≤
        (if p.pool.length < m.len + data.length then p.pool ++ junk else p.pool).length := by
    split
    case isTrue h =>
      simp only [List.length_append, hj]
      have hle : m.len + data.length ≤ max ((m.len + data.length) * 4) p.minCapacity := by
        have : m.len + data.length ≤ (m.len + data.length) * 4 := by omega
        exact le_trans this (Nat.le_max_left _ _)
      omega
    case isFalse h => omega
  have hb :
      ((if p.pool.length < m.len + data.length then p.pool ++ junk
          else p.pool).take (m.len + data.length)).length
        = m.header + data.length + m.trailer := by
    simp only [List.length_take]
    simp only [BufMargins.len] at hpool ⊢
    omega
  exact listWrite_spec _ m.header data m.trailer hb

/-! ## Connection control block (src/gateway/quic/conn.rs)

`ConnCtrl` holds the state mutex (protocol connection + waker tables) and a
`Vec`-backed inbox protected by its own mutex.  We track the observable
ordering facts: whether the state mutex is currently held (by the runner),
the queued inbox contents, and the sequence of events already handed to
`Connection::handle_event`, in order. -/

structure ConnCtrlState where
  stateLocked : Bool
  inbox : List Nat
  handled : List Nat
deriving DecidableEq

/-- `QUIC_CONN_INBOX_CAPACITY` (conn.rs line 99). -/
def quicConnInboxCapacity : Nat := 1024

/-- `ConnCtrl::send` (conn.rs lines 119-130).  If `state.try_lock()` succeeds
the event is handed to `conn.handle_event` immediately; otherwise it is pushed
onto the inbox unless the inbox already holds `QUIC_CONN_INBOX_CAPACITY`
entries, in which case the function returns and the event is discarded. -/
def ConnCtrl.send (s : ConnCtrlState) (evt : Nat) : ConnCtrlState :=
  if s.stateLocked = false then
    { s with handled := s.handled ++ [evt] }
  else if quicConnInboxCapacity ≤ s.inbox.length then
    s
  else
    { s with inbox := s.inbox ++ [evt] }

/-- Submitting a sequence of events through `ConnCtrl::send`. -/
def ConnCtrl.sendAll (s : ConnCtrlState) (evts : List Nat) : ConnCtrlState :=
  evts.foldl ConnCtrl.send s

/-- The runner's inbox drain (quic2/runner.rs lines 65 and 74-77): the inbox
is swapped out under its lock and every event is handed to
`conn.handle_event` front to back while the state mutex is held. -/
def Runner.drainInbox (s : ConnCtrlState) : ConnCtrlState :=
  { s with inbox := [], handled := s.handled ++ s.inbox }

/-- The runner releasing the state mutex at the end of its locked phase
(quic2/runner.rs line 155). -/
def Runner.unlockState (s : ConnCtrlState) : ConnCtrlState :=
  { s with stateLocked := false }

/-! ## Endpoint indices and RAII runner guard (src/gateway/quic/endpoint.rs)

The two `DashMap` indices (`ConnectionHandle -> ConnCtrl` and
`SocketAddr -> ConnectionHandle`) are modelled as association lists with
last-insert-wins semantics.  Handles, addresses and ctrl identities are `Nat`. -/

/-- Lookup in a `DashMap`, modelled over an association list. -/
def lookupKey : List (Nat × Nat) → Nat → Option Nat
  | [], _ => none
  | p :: rest, k => if p.1 = k then some p.2 else lookupKey rest k

/-- `DashMap::insert`: the new binding replaces any existing binding of `k`. -/
def insertKey (m : List (Nat × Nat)) (k v : Nat) : List (Nat × Nat) :=
  (k, v) :: m.filter (fun p => p.1 != k)

/-- `DashMap::remove`: every binding of `k` is removed, whatever its value. -/
def removeKey (m : List (Nat × Nat)) (k : Nat) : List (Nat × Nat) :=
  m.filter (fun p => p.1 != k)

theorem lookupKey_removeKey_self (m : List (Nat × Nat)) (k : Nat) :
    lookupKey (removeKey m k) k = none := by
  induction m with
  | nil => rfl
  | cons p rest ih =>
      simp only [removeKey] at ih ⊢
      by_cases h : p.1 = k
      · have hdrop : List.filter (fun q => q.1 != k) (p :: rest)
            = List.filter (fun q => q.1 != k) rest := by
          simp [List.filter_cons, h]
        rw [hdrop]
        exact ih
      · have hkeep : List.filter (fun q => q.1 != k) (p :: rest)
            = p :: List.filter (fun q => q.1 != k) rest := by
          simp [List.filter_cons, h]
        rw [hkeep]
        simp only [lookupKey, if_neg h]
        exact ih

theorem lookupKey_removeKey_ne (m : List (Nat × Nat)) (k k' : Nat) (h : k' ≠ k) :
    lookupKey (removeKey m k) k' = lookupKey m k' := by
  induction m with
  | nil => rfl
  | cons p rest ih =>
      simp only [removeKey] at ih ⊢
      by_cases hp : p.1 = k
      · have hdrop : List.filter (fun q => q.1 != k) (p :: rest)
            = List.filter (fun q => q.1 != k) rest := by
          simp [List.filter_cons, hp]
        have hq : ¬ p.1 = k' := fun e => h (by rw [← e, hp])
        rw [hdrop, ih]
        simp only [lookupKey, if_neg hq]
      · have hkeep : List.filter (fun q => q.1 != k) (p :: rest)
            = p :: List.filter (fun q => q.1 != k) rest := by
          simp [List.filter_cons, hp]
        rw [hkeep]
        by_cases hq : p.1 = k'
        · simp only [lookupKey, if_pos hq]
        · simp only [lookupKey, if_neg hq]
          exact ih

/-- The endpoint's two connection indices (`ctrls` and `conns`,
endpoint.rs lines 120-121). -/
structure EndpointState where
  ctrls : List (Nat × Nat)
  conns : List (Nat × Nat)
deriving DecidableEq

/-- Observable side effects of the endpoint's ingest path. -/
inductive EndpointEffect where
  | handshakeAttempt
  | runnerSpawned (hdl : Nat)
  | refusalPacketTried
  | ctrlSend (hdl : Nat) (evt : Nat)
  | packetOut
deriving DecidableEq

/-- `QuicEndpoint::establish` (endpoint.rs lines 193-208): spawn the runner
task and register the connection in both indices. -/
def QuicEndpoint.establish (st : EndpointState) (hdl addr : Nat) :
    EndpointState × List EndpointEffect :=
  ({ ctrls := insertKey st.ctrls hdl hdl, conns := insertKey st.conns addr hdl },
    [.runnerSpawned hdl])

/-- Outcome of `Endpoint::accept` inside the protocol core: either a new
`(handle, connection-at-address)` pair, or a refusal with an optional
handshake-refusal response datagram. -/
inductive AcceptOutcome where
  | accepted (hdl : Nat) (addr : Nat)
  | refused (response : Option Nat)
deriving DecidableEq

/-- The `DatagramEvent` returned by `Endpoint::handle` for one inbound
datagram, with the protocol core's decisions supplied as data. -/
inductive DGramEvent where
  | newConnection (outcome : AcceptOutcome)
  | connectionEvent (hdl : Nat) (evt : Nat)
  | response
deriving DecidableEq

/-- Result of `QuicEndpoint::send`. -/
inductive SendOutcome where
  | ok
  | errNotFound (hdl : Nat)
  | errAcceptFailed
deriving DecidableEq

/-- `QuicEndpoint::accept` (endpoint.rs lines 210-238): drive the handshake;
on success establish the connection, on failure emit any refusal datagram
with `try_send` and fail. -/
def QuicEndpoint.accept (st : EndpointState) (outcome : AcceptOutcome) :
    SendOutcome × EndpointState × List EndpointEffect :=
  match outcome with
  | .accepted hdl addr =>
      let (st', effs) := QuicEndpoint.establish st hdl addr
      (.ok, st', .handshakeAttempt :: effs)
  | .refused response =>
      (.errAcceptFailed, st,
        [.handshakeAttempt] ++
          (match response with
            | some _ => [.refusalPacketTried]
            | none => []))

/-- `QuicEndpoint::send` (endpoint.rs lines 272-315).  `streamSwitch` is the
new-stream sink's atomic on/off switch; `ev` is what `Endpoint::handle`
returned for the datagram. -/
def QuicEndpoint.send (st : EndpointState) (streamSwitch : Bool)
    (ev : Option DGramEvent) : SendOutcome × EndpointState × List EndpointEffect :=
  match ev with
  | some (.newConnection outcome) =>
      if streamSwitch = false then
        (.ok, st, [])
      else
        QuicEndpoint.accept st outcome
  | some (.connectionEvent hdl evt) =>
      match lookupKey st.ctrls hdl with
      | some _ => (.ok, st, [.ctrlSend hdl evt])
      | none => (.errNotFound hdl, st, [])
  | some .response => (.ok, st, [.packetOut])
  | none => (.ok, st, [])

/-- `QuicEndpoint::connect` (endpoint.rs lines 240-261): reuse the existing
connection when both indices still hold it, otherwise perform a fresh
handshake (`Endpoint::connect` + `establish`).  The returned flag is `true`
iff a new handshake was performed. -/
def QuicEndpoint.connect (st : EndpointState) (addr freshHdl : Nat) :
    Bool × EndpointState :=
  match lookupKey st.conns addr with
  | some hdl =>
      match lookupKey st.ctrls hdl with
      | some _ => (false, st)
      | none => (true, (QuicEndpoint.establish st freshHdl addr).1)
  | none => (true, (QuicEndpoint.establish st freshHdl addr).1)

/-- The RAII guard owned by the runner task (endpoint.rs lines 31-40). -/
structure RunnerGuard where
  hdl : Nat
  addr : Nat
deriving DecidableEq

/-- `RunnerGuard::drop` (endpoint.rs lines 42-47): unconditionally remove
this connection's handle from `ctrls` and its peer address from `conns`. -/
def RunnerGuard.drop (g : RunnerGuard) (st : EndpointState) : EndpointState :=
  { ctrls := removeKey st.ctrls g.hdl, conns := removeKey st.conns g.addr }

/-! ## Runner event loop (src/gateway/quic/runner.rs)

The "drain core events" phase (runner.rs lines 91-116): `Connection::poll` is
pumped until exhausted; stream-opened events enqueue accepted ids for later
dispatch (only while the new-stream switch is on), readable/writable events
move parked wakers to the deferred-wake list, and `ConnectionLost` makes the
whole `run` future return `ErrorKind::ConnectionReset`. -/

/-- A `quinn_proto::Event` surfaced by `Connection::poll`.  `streamOpened`
carries the ids the subsequent `streams().accept(dir)` loop would yield. -/
inductive CoreEvent where
  | streamOpened (ids : List Nat)
  | streamReadable (id : Nat)
  | streamWritable (id : Nat)
  | connectionLost (reason : Nat)
  | connected
deriving DecidableEq

/-- Whether an event is `ConnectionLost`. -/
def CoreEvent.isLost : CoreEvent → Bool
  | .connectionLost _ => true
  | _ => false

/-- The runner-local queues touched by the event-drain phase. -/
structure RunnerPhase where
  readers : List (Nat × Nat)
  writers : List (Nat × Nat)
  pendingStreams : List Nat
  pendingWakers : List Nat
deriving DecidableEq

/-- Errors `Runner::run` can return. -/
inductive RunError where
  | connectionReset (reason : Nat)
  | brokenPipe
deriving DecidableEq

/-- One pass of the `while let Some(evt) = state.conn.poll()` loop
(runner.rs lines 91-116). -/
def Runner.pollEvents (switch : Bool) (st : RunnerPhase) :
    List CoreEvent → Except RunError RunnerPhase
  | [] => .ok st
  | e :: rest =>
      match e with
      | .streamOpened ids =>
          Runner.pollEvents switch
            (if switch then { st with pendingStreams := st.pendingStreams ++ ids } else st) rest
      | .streamReadable id =>
          Runner.pollEvents switch
            (match lookupKey st.readers id with
              | some w =>
                  { st with readers := removeKey st.readers id,
                            pendingWakers := st.pendingWakers ++ [w] }
              | none => st) rest
      | .streamWritable id =>
          Runner.pollEvents switch
            (match lookupKey st.writers id with
              | some w =>
                  { st with writers := removeKey st.writers id,
                            pendingWakers := st.pendingWakers ++ [w] }
              | none => st) rest
      | .connectionLost reason => .error (.connectionReset reason)
      | .connected => Runner.pollEvents switch st rest

/-- The driver task wrapping one runner (endpoint.rs lines 66-76): it runs
`Runner::run` to completion and then drops the `RunnerGuard` it owns, so the
index entries are gone by the time the task finishes. -/
def runnerTask (g : RunnerGuard) (switch : Bool) (ph : RunnerPhase)
    (evts : List CoreEvent) (st : EndpointState) :
    Except RunError RunnerPhase × EndpointState :=
  (Runner.pollEvents switch ph evts, RunnerGuard.drop g st)

theorem pollEvents_lost (switch : Bool) (reason : Nat) (evts₂ : List CoreEvent) :
    ∀ (evts₁ : List CoreEvent) (ph : RunnerPhase),
      evts₁.all (fun e => !e.isLost) = true →
      Runner.pollEvents switch ph (evts₁ ++ .connectionLost reason :: evts₂)
        = .error (.connectionReset reason) := by
  intro evts₁
  induction evts₁ with
  | nil => intro ph _; rfl
  | cons e rest ih =>
      intro ph hall
      simp only [List.all_cons, Bool.and_eq_true] at hall
      obtain ⟨he, hrest⟩ := hall
      cases e with
      | streamOpened ids => exact ih _ hrest
      | streamReadable id => exact ih _ hrest
      | streamWritable id => exact ih _ hrest
      | connectionLost r => simp [CoreEvent.isLost] at he
      | connected => exact ih _ hrest

/-! ## Send phase with ingress preemption (runner.rs lines 160-201)

The send loop is a `tokio::select!` with the `biased` keyword, whose branches
are, in polling order: (1) reserve a slot on the packet sink and emit the head
pending transmit, (2) reserve a slot on the new-stream sink and dispatch the
head pending stream, (3) observe the control notifier and break.  `biased`
makes tokio poll the branches exactly in that order each time the select is
entered, so the notifier is only consulted after both send branches failed to
complete immediately. -/

/-- The runner-side queues of the send loop together with what has been
pushed to each sink so far. -/
structure SendLoopState where
  pendingTransmits : List Nat
  pendingStreams : List Nat
  sentPackets : List Nat
  sentStreams : List Nat
deriving DecidableEq

/-- What one entry into the `select!` resolved to. -/
inductive LoopStep where
  | emittedPacket
  | emittedStream
  | preempted
  | suspended
  | finished
deriving DecidableEq

/-- One entry into the send loop's `select!` (runner.rs lines 162-200):
`packetReady`/`streamReady` say whether the corresponding `reserve()` call
completes immediately, `notified` whether the control notifier has fired. -/
def sendLoopStep (packetReady streamReady notified : Bool) (s : SendLoopState) :
    LoopStep × SendLoopState :=
  if s.pendingTransmits.isEmpty && s.pendingStreams.isEmpty then
    (.finished, s)
  else if !s.pendingTransmits.isEmpty && packetReady then
    match s.pendingTransmits with
    | t :: rest =>
        (.emittedPacket,
          { s with pendingTransmits := rest, sentPackets := s.sentPackets ++ [t] })
    | [] => (.suspended, s)
  else if !s.pendingStreams.isEmpty && streamReady then
    match s.pendingStreams with
    | t :: rest =>
        (.emittedStream,
          { s with pendingStreams := rest, sentStreams := s.sentStreams ++ [t] })
    | [] => (.suspended, s)
  else if notified then
    (.preempted, s)
  else
    (.suspended, s)

/-! ## Stream handle polling (src/gateway/quic/stream.rs)

`QuicStream::poll_read` (stream.rs lines 154-227) drains the event channel
`rx`, buffering any partially consumed `Data` chunk in `read_pending`.
`Poll::Pending` is returned only by `rx.poll_recv(cx)`, which registers the
caller's waker first, so the `pending` outcome below implies a registered
waker and every other outcome implies none was registered or woken. -/

/-- Events delivered on the stream's event channel (evt.rs lines 13-19). -/
inductive QuicStreamEvt where
  | ready
  | data (d : List Nat)
  | fin
  | reset (e : Nat)
deriving DecidableEq

/-- What a `poll_read` call resolves to: `ready bytes` is `Poll::Ready(Ok)`
after putting `bytes` into the caller's buffer, `resetErr` is
`Poll::Ready(Err(ConnectionReset))`, `pending` is `Poll::Pending` with the
caller's waker registered by `poll_recv`. -/
inductive ReadPoll where
  | ready (bytes : List Nat)
  | resetErr (e : Nat)
  | pending
deriving DecidableEq

/-- The mutable state of a `QuicStream` reader: the back-pressure flag and
command-channel readiness (lines 163-182), the buffered partial chunk, the
FIN latch, the queued events of `rx` and whether `rx`'s sender is gone. -/
structure QuicStreamReadState where
  readBlocked : Bool
  cmdReady : Bool
  readPending : Option (List Nat)
  finReceived : Bool
  rx : List QuicStreamEvt
  rxClosed : Bool
deriving DecidableEq

/-- The rx-draining part of `poll_read` (stream.rs lines 184-225) once
`read_pending` is empty: fetch events until a non-empty `Data` chunk, `Fin`,
`Reset` or `Pending`; put `min (chunk.len) (cap - got.len)` bytes; repeat.
Returns the poll outcome plus the new `read_pending`, the new `fin_received`
flag and the remaining queued events. -/
def pollReadEvents (rxClosed : Bool) (cap : Nat) :
    List Nat → Bool → List QuicStreamEvt →
      ReadPoll × Option (List Nat) × Bool × List QuicStreamEvt
  | acc, written, [] =>
      if rxClosed then (.ready acc, none, true, [])
      else if written then (.ready acc, none, false, [])
      else (.pending, none, false, [])
  | acc, written, e :: rest =>
      match e with
      | .fin => (.ready acc, none, true, rest)
      | .reset err => (.resetErr err, none, false, rest)
      | .ready => pollReadEvents rxClosed cap acc written rest
      | .data d =>
          if d.isEmpty then pollReadEvents rxClosed cap acc written rest
          else
            let len := min d.length (cap - acc.length)
            let acc' := acc ++ d.take len
            let rest' := d.drop len
            if !rest'.isEmpty then (.ready acc', some rest', false, rest)
            else if cap - acc'.length = 0 then (.ready acc', none, false, rest)
            else pollReadEvents rxClosed cap acc' true rest

/-- `QuicStream::poll_read` (stream.rs lines 154-227) against a caller buffer
of capacity `cap`. -/
def QuicStream.pollRead (s : QuicStreamReadState) (cap : Nat) :
    ReadPoll × QuicStreamReadState :=
  let s :=
    if s.readBlocked && s.cmdReady then { s with readBlocked := false } else s
  match s.readPending with
  | some chunk =>
      let len := min chunk.length cap
      let put := chunk.take len
      let rest := chunk.drop len
      if !rest.isEmpty then (.ready put, { s with readPending := some rest })
      else if cap - len = 0 then (.ready put, { s with readPending := none })
      else
        match pollReadEvents s.rxClosed cap put true s.rx with
        | (res, pend, fin, rx') =>
            (res, { s with readPending := pend, finReceived := fin, rx := rx' })
  | none =>
      if s.finReceived then (.ready [], s)
      else
        match pollReadEvents s.rxClosed cap [] false s.rx with
        | (res, pend, fin, rx') =>
            (res, { s with readPending := pend, finReceived := fin, rx := rx' })

/-! ## Stream handle write path (stream.rs lines 19-22 and 229-293) -/

/-- `QUIC_STREAM_WRITE_BUFFER_FLUSH_THRESHOLD` (stream.rs line 19). -/
def quicStreamWriteBufferFlushThreshold : Nat := 64 * 1200

/-- The mutable state of a `QuicStream` writer: the flow-control gate
(`ctrl.poll_ready`), the command channel's readiness, the internal write
buffer, the commands already forwarded to the driver as `(data, fin)` pairs,
and the FIN latch. -/
structure QuicStreamWriteState where
  flowBlocked : Bool
  cmdReady : Bool
  writeBuf : List Nat
  sentCmds : List (List Nat × Bool)
  finSent : Bool
deriving DecidableEq

/-- Outcome of `poll_write` / `poll_flush` / `poll_shutdown`: `ready n` is
`Poll::Ready(Ok(n))`, `pending` is `Poll::Pending`. -/
inductive WritePoll where
  | ready (n : Nat)
  | pending
deriving DecidableEq

/-- `QuicStream::poll_write` (stream.rs lines 251-267): gated on the
flow-control notifier; decides `flush` when the buffered plus incoming bytes
reach the flush threshold; copies the caller's slice into `write_buf`; if
flushing, forwards the whole buffer to the driver as one `StreamWrite`
command; returns `Ready(Ok(buf.len()))`. -/
def QuicStream.pollWrite (s : QuicStreamWriteState) (buf : List Nat) :
    WritePoll × QuicStreamWriteState :=
  if s.flowBlocked then (.pending, s)
  else
    let flush := quicStreamWriteBufferFlushThreshold ≤ s.writeBuf.length + buf.length
    if flush ∧ s.cmdReady = false then (.pending, s)
    else
      let wb := s.writeBuf ++ buf
      if flush then
        (.ready buf.length,
          { s with writeBuf := [], sentCmds := s.sentCmds ++ [(wb, false)] })
      else
        (.ready buf.length, { s with writeBuf := wb })

/-- `QuicStream::poll_flush` (stream.rs lines 269-277): forward any buffered
bytes, then flush the command channel. -/
def QuicStream.pollFlush (s : QuicStreamWriteState) :
    WritePoll × QuicStreamWriteState :=
  if s.writeBuf.isEmpty then (.ready 0, s)
  else if s.cmdReady then
    (.ready 0, { s with writeBuf := [], sentCmds := s.sentCmds ++ [(s.writeBuf, false)] })
  else (.pending, s)

/-- `QuicStream::poll_shutdown` (stream.rs lines 279-292): idempotent on
`fin_sent`; otherwise flush, then send an empty `StreamWrite` with
`fin = true`. -/
def QuicStream.pollShutdown (s : QuicStreamWriteState) :
    WritePoll × QuicStreamWriteState :=
  if s.finSent then (.ready 0, s)
  else
    match QuicStream.pollFlush s with
    | (.pending, s') => (.pending, s')
    | (.ready _, s') =>
        if s'.cmdReady then
          (.ready 0, { s' with sentCmds := s'.sentCmds ++ [([], true)], finSent := true })
        else (.pending, s')

/-! ## Claim theorems -/

/-- C1 counterexample: with a transmit pending, the packet sink ready and the
control notifier already fired, the biased `select!` (runner.rs line 165)
polls the packet branch first and emits a further packet instead of breaking
out — refuting "whenever the notifier fires ... the runner breaks out of the
send loop ... before emitting any further packet or stream". -/
theorem c1_counterexample :
    (sendLoopStep true true true ⟨[42], [], [], []⟩).1 = LoopStep.emittedPacket ∧
    LoopStep.emittedPacket ≠ LoopStep.preempted := by
  decide

/-- C1 (amended): the notifier firing preempts the send loop only when no
send branch can complete immediately: if transmits or streams are still
pending but each nonempty queue's sink reservation is not ready, the fired
notifier makes the loop break back to ingress with nothing further emitted. -/
theorem c1_preempt_only_when_sinks_blocked
    (packetReady streamReady : Bool) (s : SendLoopState)
    (hp : s.pendingTransmits = [] ∨ packetReady = false)
    (hs : s.pendingStreams = [] ∨ streamReady = false)
    (hne : ¬(s.pendingTransmits = [] ∧ s.pendingStreams = [])) :
    sendLoopStep packetReady streamReady true s = (.preempted, s) := by
  cases htx : s.pendingTransmits with
  | nil =>
      cases hst : s.pendingStreams with
      | nil => exact absurd ⟨htx, hst⟩ hne
      | cons a l =>
          rcases hs with hs | hs
          · rw [hst] at hs; cases hs
          · simp [sendLoopStep, htx, hst, hs]
  | cons a l =>
      rcases hp with hp | hp
      · rw [htx] at hp; cases hp
      · cases hst : s.pendingStreams with
        | nil => simp [sendLoopStep, htx, hst, hp]
        | cons b l' =>
            rcases hs with hs | hs
            · rw [hst] at hs; cases hs
            · simp [sendLoopStep, htx, hst, hp, hs]

/-- C1 witness: a concrete preemption — one pending transmit, both sinks
blocked, notifier fired: the loop breaks with nothing emitted. -/
theorem c1_preempt_witness :
    ((([42] : List Nat) = [] ∨ false = false) ∧
      (([] : List Nat) = [] ∨ false = false) ∧
      ¬(([42] : List Nat) = [] ∧ ([] : List Nat) = [])) ∧
    sendLoopStep false false true ⟨[42], [], [], []⟩
      = (.preempted, ⟨[42], [], [], []⟩) :=
  ⟨⟨Or.inr rfl, Or.inl rfl, by decide⟩,
    c1_preempt_only_when_sinks_blocked false false ⟨[42], [], [], []⟩
      (Or.inr rfl) (Or.inl rfl) (by decide)⟩

/-- C2 counterexample: event 1 is submitted while the runner holds the state
lock (queued in the inbox), the runner then releases the lock, and event 2 is
submitted with the lock free — `try_lock` succeeds and event 2 is handed to
`handle_event` immediately, so the runner consumes [2, 1], not the submission
order [1, 2]. -/
theorem c2_counterexample :
    (Runner.drainInbox (ConnCtrl.send
        (Runner.unlockState (ConnCtrl.send ⟨true, [], []⟩ 1)) 2)).handled = [2, 1] ∧
    ([2, 1] : List Nat) ≠ [1, 2] := by
  decide

/-- C2 (amended): events submitted while the runner holds the state lock all
go through the inbox and are handed to `handle_event` in FIFO submission
order at the next drain, provided the inbox capacity of 1024 is not
exceeded; but an event submitted while the lock is momentarily free is
handled immediately and can overtake inbox-queued events, and events
submitted to a full inbox are dropped. -/
theorem c2_inbox_fifo (s : ConnCtrlState) (evts : List Nat)
    (hl : s.stateLocked = true)
    (hcap : s.inbox.length + evts.length ≤ quicConnInboxCapacity) :
    (Runner.drainInbox (ConnCtrl.sendAll s evts)).handled
      = s.handled ++ s.inbox ++ evts := by
  induction evts generalizing s with
  | nil => simp [ConnCtrl.sendAll, Runner.drainInbox]
  | cons e rest ih =>
      have hlt : ¬ quicConnInboxCapacity ≤ s.inbox.length := by
        simp only [List.length_cons] at hcap
        omega
      have hsend : ConnCtrl.send s e = { s with inbox := s.inbox ++ [e] } := by
        simp [ConnCtrl.send, hl, hlt]
      have hcap' : (s.inbox ++ [e]).length + rest.length ≤ quicConnInboxCapacity := by
        simp only [List.length_append, List.length_singleton]
        simp only [List.length_cons] at hcap
        omega
      have hstep : ConnCtrl.sendAll s (e :: rest)
          = ConnCtrl.sendAll { s with inbox := s.inbox ++ [e] } rest := by
        simp [ConnCtrl.sendAll, hsend]
      rw [hstep, ih { s with inbox := s.inbox ++ [e] } hl hcap']
      simp

/-- C2 witness: two events queued under the held lock drain in submission
order. -/
theorem c2_inbox_fifo_witness :
    ((⟨true, [], []⟩ : ConnCtrlState).stateLocked = true ∧
      (⟨true, [], []⟩ : ConnCtrlState).inbox.length + [5, 6].length
        ≤ quicConnInboxCapacity) ∧
    (Runner.drainInbox (ConnCtrl.sendAll ⟨true, [], []⟩ [5, 6])).handled
      = ([] : List Nat) ++ [] ++ [5, 6] :=
  ⟨⟨rfl, by decide⟩, c2_inbox_fifo ⟨true, [], []⟩ [5, 6] rfl (by decide)⟩

/-- C3 counterexample: an event submitted to a connection whose inbox already
holds `QUIC_CONN_INBOX_CAPACITY` (1024) entries while the runner holds the
state lock is silently discarded (conn.rs lines 124-126) — the producer is
not made to wait and the item is lost, refuting "exhaustion causes the
producer to wait (backpressure) and no submitted item is ever discarded". -/
theorem c3_counterexample :
    ConnCtrl.send ⟨true, List.replicate 1024 0, []⟩ 7
      = ⟨true, List.replicate 1024 0, []⟩ := by
  simp [ConnCtrl.send, quicConnInboxCapacity, List.length_replicate]

/-- C3 (amended): the runner-to-transport channels use reserve-based sends
(backpressure), but the per-connection event inbox is a bounded buffer that
silently drops events once it holds 1024 entries (and handshake-refusal
datagrams go through `try_send`, which can also discard).  Below capacity a
submitted event is never discarded: it ends up either handled at once or
queued in the inbox. -/
theorem c3_no_discard_below_capacity (s : ConnCtrlState) (e : Nat)
    (h : s.inbox.length < quicConnInboxCapacity) :
    (ConnCtrl.send s e).handled.length + (ConnCtrl.send s e).inbox.length
        = s.handled.length + s.inbox.length + 1 ∧
    (e ∈ (ConnCtrl.send s e).handled ∨ e ∈ (ConnCtrl.send s e).inbox) := by
  have hlt : ¬ quicConnInboxCapacity ≤ s.inbox.length := by omega
  by_cases hb : s.stateLocked = false
  · constructor
    · simp [ConnCtrl.send, hb]
      try omega
    · simp [ConnCtrl.send, hb]
  · constructor
    · simp [ConnCtrl.send, hb, hlt]
      try omega
    · simp [ConnCtrl.send, hb, hlt]

/-- C3 witness: a submission to an empty inbox is retained. -/
theorem c3_no_discard_witness :
    ((⟨false, [], []⟩ : ConnCtrlState).inbox.length < quicConnInboxCapacity) ∧
    ((ConnCtrl.send ⟨false, [], []⟩ 3).handled.length
          + (ConnCtrl.send ⟨false, [], []⟩ 3).inbox.length
        = (⟨false, [], []⟩ : ConnCtrlState).handled.length
          + (⟨false, [], []⟩ : ConnCtrlState).inbox.length + 1 ∧
      (3 ∈ (ConnCtrl.send ⟨false, [], []⟩ 3).handled ∨
        3 ∈ (ConnCtrl.send ⟨false, [], []⟩ 3).inbox)) :=
  ⟨by decide, c3_no_discard_below_capacity ⟨false, [], []⟩ 3 (by decide)⟩

/-- C4: when `Connection::poll` reports `ConnectionLost`, `Runner::run`
returns an error of kind `ConnectionReset` carrying the reason (runner.rs
lines 111-113); the driver task then drops the `RunnerGuard`, which removes
the connection from both endpoint indices, so a subsequent `connect` to the
same peer takes the fresh-handshake path. -/
theorem c4_connection_lost_reset
    (g : RunnerGuard) (switch : Bool) (ph : RunnerPhase) (st : EndpointState)
    (evts₁ evts₂ : List CoreEvent) (reason freshHdl : Nat)
    (h₁ : evts₁.all (fun e => !e.isLost) = true) :
    (runnerTask g switch ph (evts₁ ++ .connectionLost reason :: evts₂) st).1
        = .error (.connectionReset reason) ∧
    lookupKey (runnerTask g switch ph
        (evts₁ ++ .connectionLost reason :: evts₂) st).2.ctrls g.hdl = none ∧
    lookupKey (runnerTask g switch ph
        (evts₁ ++ .connectionLost reason :: evts₂) st).2.conns g.addr = none ∧
    (QuicEndpoint.connect (runnerTask g switch ph
        (evts₁ ++ .connectionLost reason :: evts₂) st).2 g.addr freshHdl).1 = true := by
  refine ⟨pollEvents_lost switch reason evts₂ evts₁ ph h₁,
    lookupKey_removeKey_self st.ctrls g.hdl,
    lookupKey_removeKey_self st.conns g.addr, ?_⟩
  have hnone : lookupKey (runnerTask g switch ph
      (evts₁ ++ .connectionLost reason :: evts₂) st).2.conns g.addr = none :=
    lookupKey_removeKey_self st.conns g.addr
  unfold QuicEndpoint.connect
  rw [hnone]

/-- C4 witness: a concrete lost connection at handle 1, address 2. -/
theorem c4_connection_lost_witness :
    ([CoreEvent.connected].all (fun e => !e.isLost) = true) ∧
    ((runnerTask ⟨1, 2⟩ true ⟨[], [], [], []⟩
        ([.connected] ++ .connectionLost 3 :: []) ⟨[(1, 1)], [(2, 1)]⟩).1
        = .error (.connectionReset 3) ∧
      lookupKey (runnerTask ⟨1, 2⟩ true ⟨[], [], [], []⟩
        ([.connected] ++ .connectionLost 3 :: []) ⟨[(1, 1)], [(2, 1)]⟩).2.ctrls 1 = none ∧
      lookupKey (runnerTask ⟨1, 2⟩ true ⟨[], [], [], []⟩
        ([.connected] ++ .connectionLost 3 :: []) ⟨[(1, 1)], [(2, 1)]⟩).2.conns 2 = none ∧
      (QuicEndpoint.connect (runnerTask ⟨1, 2⟩ true ⟨[], [], [], []⟩
        ([.connected] ++ .connectionLost 3 :: []) ⟨[(1, 1)], [(2, 1)]⟩).2 2 9).1 = true) :=
  ⟨by decide,
    c4_connection_lost_reset ⟨1, 2⟩ true ⟨[], [], [], []⟩ ⟨[(1, 1)], [(2, 1)]⟩
      [.connected] [] 3 9 (by decide)⟩

/-- C5: `BufPool::buf` returns an owned buffer of length
`header + data.len() + trailer` whose middle region equals the source slice;
and every packet popped off an accumulator chunk by the egress loop is
exactly its transmit's segment - `header` reserved bytes, then the payload
the core produced, then `trailer` reserved bytes. -/
theorem c5_bufpool_and_margins
    (p : BufPool) (data junk : List Nat) (m : BufMargins)
    (hj : junk.length = max ((m.len + data.length) * 4) p.minCapacity)
    (header trailer : Nat) (ts : List TransmitSeg)
    (hts : goodSegs header trailer ts) :
    ((BufPool.buf p data m junk).1.length = m.header + data.length + m.trailer ∧
      ((BufPool.buf p data m junk).1.drop m.header).take data.length = data) ∧
    emitLoop header trailer (ts.map fun t => t.payload.length) (buildChunk ts)
        = ts.map TransmitSeg.flat ∧
    ∀ t ∈ ts, t.flat.length = header + t.payload.length + trailer ∧
      (t.flat.drop header).take t.payload.length = t.payload := by
  refine ⟨bufPool_buf_spec p data junk m hj, emitLoop_eq_flat header trailer ts hts, ?_⟩
  intro t ht
  exact flat_middle header trailer t (hts t ht).1 (hts t ht).2

/-- C5 witness: margins (1, 1), source [5, 6], arena growth 16; one transmit
segment with payload [1, 2]. -/
theorem c5_bufpool_witness :
    ((List.replicate 16 0).length
        = max ((BufMargins.len ⟨1, 1⟩ + [5, 6].length) * 4) (BufPool.mk [] 8).minCapacity ∧
      goodSegs 1 1 [⟨[9], [1, 2], [7]⟩]) ∧
    (((BufPool.buf ⟨[], 8⟩ [5, 6] ⟨1, 1⟩ (List.replicate 16 0)).1.length
          = 1 + [5, 6].length + 1 ∧
        ((BufPool.buf ⟨[], 8⟩ [5, 6] ⟨1, 1⟩ (List.replicate 16 0)).1.drop 1).take
            [5, 6].length = [5, 6]) ∧
      emitLoop 1 1 ([⟨[9], [1, 2], [7]⟩].map fun t : TransmitSeg => t.payload.length)
          (buildChunk [⟨[9], [1, 2], [7]⟩])
        = [⟨[9], [1, 2], [7]⟩].map TransmitSeg.flat ∧
      ∀ t ∈ ([⟨[9], [1, 2], [7]⟩] : List TransmitSeg),
        t.flat.length = 1 + t.payload.length + 1 ∧
        (t.flat.drop 1).take t.payload.length = t.payload) :=
  ⟨⟨by decide, by
      intro t ht
      rw [List.mem_singleton] at ht
      subst ht
      exact ⟨rfl, rfl⟩⟩,
    c5_bufpool_and_margins ⟨[], 8⟩ [5, 6] (List.replicate 16 0) ⟨1, 1⟩ (by decide)
      1 1 [⟨[9], [1, 2], [7]⟩] (by
        intro t ht
        rw [List.mem_singleton] at ht
        subst ht
        exact ⟨rfl, rfl⟩)⟩

/-- C6: if the new-stream sink's switch is off when a datagram producing
`NewConnection` arrives, `QuicEndpoint::send` returns success, no handshake
is attempted, no stream is pushed and no connection state is retained
(endpoint.rs lines 279-287). -/
theorem c6_switch_off_no_state (st : EndpointState) (outcome : AcceptOutcome) :
    QuicEndpoint.send st false (some (.newConnection outcome)) = (.ok, st, []) := by
  rfl

/-- C7 counterexample: an inbound `ConnectionEvent` for a handle absent from
the endpoint's index makes `QuicEndpoint::send` return an error of kind
`NotFound` (endpoint.rs lines 293-298), not success — refuting "dropped at
the endpoint with a single log ... send still returns success". -/
theorem c7_counterexample :
    (QuicEndpoint.send ⟨[], []⟩ true (some (.connectionEvent 0 0))).1
        = SendOutcome.errNotFound 0 ∧
    SendOutcome.errNotFound 0 ≠ SendOutcome.ok := by
  decide

/-- C7 (amended): an inbound event for an unknown handle is dropped — no
connection receives it and the endpoint state is unchanged — but it is
surfaced to the caller: `send` returns an error of kind `NotFound` naming
the handle. -/
theorem c7_unknown_handle_err (st : EndpointState) (sw : Bool) (hdl evt : Nat)
    (h : lookupKey st.ctrls hdl = none) :
    QuicEndpoint.send st sw (some (.connectionEvent hdl evt))
      = (.errNotFound hdl, st, []) := by
  simp only [QuicEndpoint.send, h]

/-- C7 witness: the empty index at handle 0. -/
theorem c7_unknown_handle_witness :
    lookupKey (EndpointState.mk [] []).ctrls 0 = none ∧
    QuicEndpoint.send ⟨[], []⟩ true (some (.connectionEvent 0 0))
      = (.errNotFound 0, ⟨[], []⟩, []) :=
  ⟨rfl, c7_unknown_handle_err ⟨[], []⟩ true 0 0 rfl⟩

/-- C10: `RunnerGuard::drop` unconditionally removes its handle from the
handle index and its peer address from the address index — even when the
address entry meanwhile points at a newer connection handle `h2`, which is
thereby evicted from the address index while its own `ctrls` entry
survives. -/
theorem c10_guard_drop_unconditional (g : RunnerGuard) (st : EndpointState) (h2 : Nat)
    (hmap : lookupKey st.conns g.addr = some h2) :
    lookupKey (RunnerGuard.drop g st).ctrls g.hdl = none ∧
    lookupKey (RunnerGuard.drop g st).conns g.addr = none ∧
    (h2 ≠ g.hdl → lookupKey (RunnerGuard.drop g st).ctrls h2 = lookupKey st.ctrls h2) :=
  ⟨lookupKey_removeKey_self st.ctrls g.hdl,
    lookupKey_removeKey_self st.conns g.addr,
    fun hne => lookupKey_removeKey_ne st.ctrls g.hdl h2 hne⟩

/-- C10 witness: connection 1 to address 5 is established, then connection 2
re-establishes to the same address (remapping the address entry); dropping
connection 1's guard evicts address 5 entirely while ctrl 2 remains. -/
theorem c10_guard_drop_witness :
    lookupKey (QuicEndpoint.establish
        (QuicEndpoint.establish ⟨[], []⟩ 1 5).1 2 5).1.conns 5 = some 2 ∧
    (lookupKey (RunnerGuard.drop ⟨1, 5⟩ (QuicEndpoint.establish
        (QuicEndpoint.establish ⟨[], []⟩ 1 5).1 2 5).1).ctrls 1 = none ∧
      lookupKey (RunnerGuard.drop ⟨1, 5⟩ (QuicEndpoint.establish
        (QuicEndpoint.establish ⟨[], []⟩ 1 5).1 2 5).1).conns 5 = none ∧
      (2 ≠ 1 → lookupKey (RunnerGuard.drop ⟨1, 5⟩ (QuicEndpoint.establish
          (QuicEndpoint.establish ⟨[], []⟩ 1 5).1 2 5).1).ctrls 2
        = lookupKey (QuicEndpoint.establish
            (QuicEndpoint.establish ⟨[], []⟩ 1 5).1 2 5).1.ctrls 2)) :=
  ⟨by decide,
    c10_guard_drop_unconditional ⟨1, 5⟩
      (QuicEndpoint.establish (QuicEndpoint.establish ⟨[], []⟩ 1 5).1 2 5).1 2 (by decide)⟩

/-- C8 counterexample: a zero-capacity `poll_read` on a stream with no
buffered chunk, no FIN and an empty event queue reaches `rx.poll_recv(cx)`,
which registers the caller's waker and returns `Poll::Pending` — refuting
"every poll_read call made with a zero-capacity buffer returns Ready(Ok)
with zero bytes read and neither registers nor invokes any waker". -/
theorem c8_counterexample :
    (QuicStream.pollRead ⟨false, false, none, false, [], false⟩ 0).1
        = ReadPoll.pending ∧
    ReadPoll.pending ≠ ReadPoll.ready [] := by
  decide

/-- C8 (amended): a zero-capacity `poll_read` returns `Ready(Ok)` with zero
bytes — and without touching the event queue's waker — whenever a buffered
chunk is pending from an earlier read or FIN was already received; when no
data is available it registers the waker and returns Pending like any other
read. -/
theorem c8_zero_capacity_ready (s : QuicStreamReadState)
    (h : s.readPending.isSome = true ∨ s.finReceived = true) :
    (QuicStream.pollRead s 0).1 = .ready [] := by
  by_cases hb : (s.readBlocked && s.cmdReady) = true
  all_goals
    cases hrp : s.readPending with
    | some chunk =>
        cases chunk with
        | nil => simp [QuicStream.pollRead, hb, hrp]
        | cons a l => simp [QuicStream.pollRead, hb, hrp]
    | none =>
        have hf : s.finReceived = true := by
          rcases h with h | h
          · rw [hrp] at h
            cases h
          · exact h
        simp [QuicStream.pollRead, hb, hrp, hf]

/-- C8 witness: a pending chunk [3] makes the zero-capacity read finish at
once with nothing read. -/
theorem c8_zero_capacity_witness :
    ((some [3] : Option (List Nat)).isSome = true ∨
      (⟨false, false, some [3], false, [], false⟩ : QuicStreamReadState).finReceived
        = true) ∧
    (QuicStream.pollRead ⟨false, false, some [3], false, [], false⟩ 0).1
      = .ready [] :=
  ⟨Or.inl rfl,
    c8_zero_capacity_ready ⟨false, false, some [3], false, [], false⟩ (Or.inl rfl)⟩

/-- C9 counterexample: `poll_write` is gated on the stream's flow-control
notifier (stream.rs line 256); with the gate blocked the call returns
Pending and copies nothing — refuting "poll_write copies the caller's bytes
into an internal write buffer and returns Ready(Ok(buf.len())) immediately". -/
theorem c9_counterexample :
    (QuicStream.pollWrite ⟨true, true, [], [], false⟩ [7]).1 = WritePoll.pending ∧
    WritePoll.pending ≠ WritePoll.ready 1 := by
  decide

/-- C9 (amended): when the flow-control gate is open and — only if the flush
threshold would be reached — the command channel is ready, `poll_write`
copies the caller's bytes into the internal write buffer and returns
`Ready(Ok(buf.len()))`; otherwise (gate blocked, or threshold reached with
the channel unready) it returns Pending without copying.  The buffered bytes
are forwarded to the driver exactly when the buffer reaches the 76,800-byte
(64 x 1200) flush threshold, and otherwise stay buffered until `poll_flush`
(or `poll_shutdown`, which flushes first) forwards them. -/
theorem c9_buffered_write (s : QuicStreamWriteState) (buf : List Nat) :
    (s.flowBlocked = false →
      (quicStreamWriteBufferFlushThreshold ≤ s.writeBuf.length + buf.length →
        s.cmdReady = true) →
      (QuicStream.pollWrite s buf).1 = .ready buf.length ∧
      ((QuicStream.pollWrite s buf).2.writeBuf,
          (QuicStream.pollWrite s buf).2.sentCmds)
        = (if quicStreamWriteBufferFlushThreshold ≤ s.writeBuf.length + buf.length
            then (([] : List Nat), s.sentCmds ++ [(s.writeBuf ++ buf, false)])
            else (s.writeBuf ++ buf, s.sentCmds))) ∧
    (s.flowBlocked = true ∨
        (quicStreamWriteBufferFlushThreshold ≤ s.writeBuf.length + buf.length ∧
          s.cmdReady = false) →
      QuicStream.pollWrite s buf = (.pending, s)) ∧
    (s.cmdReady = true → s.writeBuf.isEmpty = false →
      QuicStream.pollFlush s
        = (.ready 0,
            { s with writeBuf := [], sentCmds := s.sentCmds ++ [(s.writeBuf, false)] })) := by
  refine ⟨?_, ?_, ?_⟩
  · intro h1 hready
    by_cases hth : quicStreamWriteBufferFlushThreshold ≤ s.writeBuf.length + buf.length
    · have h2 : s.cmdReady = true := hready hth
      constructor
      · simp [QuicStream.pollWrite, h1, h2, hth]
      · simp [QuicStream.pollWrite, h1, h2, hth]
    · constructor
      · simp [QuicStream.pollWrite, h1, hth]
      · simp [QuicStream.pollWrite, h1, hth]
  · intro h
    rcases h with hfb | ⟨hth, hcr⟩
    · simp [QuicStream.pollWrite, hfb]
    · by_cases hfb : s.flowBlocked = true
      · simp [QuicStream.pollWrite, hfb]
      · simp [QuicStream.pollWrite, hfb, hth, hcr]
  · intro h2 hE
    simp [QuicStream.pollFlush, hE, h2]

/-- C9 witness: a small write [7] onto buffer [9] with the command channel
NOT ready still copies and returns Ready (readiness matters only at the
flush threshold); a flow-blocked write returns Pending with nothing copied;
a flush forwards the buffered bytes. -/
theorem c9_buffered_write_witness :
    ((QuicStream.pollWrite ⟨false, false, [9], [], false⟩ [7]).1 = .ready [7].length ∧
      ((QuicStream.pollWrite ⟨false, false, [9], [], false⟩ [7]).2.writeBuf,
          (QuicStream.pollWrite ⟨false, false, [9], [], false⟩ [7]).2.sentCmds)
        = (if quicStreamWriteBufferFlushThreshold ≤ [(9 : Nat)].length + [(7 : Nat)].length
            then (([] : List Nat), [] ++ [([9] ++ [7], false)])
            else (([9] : List Nat) ++ [7], ([] : List (List Nat × Bool))))) ∧
    QuicStream.pollWrite ⟨true, true, [], [], false⟩ [7]
      = (.pending, ⟨true, true, [], [], false⟩) ∧
    QuicStream.pollFlush ⟨false, true, [9], [], false⟩
      = (.ready 0, ⟨false, true, [], [] ++ [([9], false)], false⟩) :=
  ⟨(c9_buffered_write ⟨false, false, [9], [], false⟩ [7]).1 rfl
      (fun hth => absurd hth (by decide)),
    (c9_buffered_write ⟨true, true, [], [], false⟩ [7]).2.1 (Or.inl rfl),
    (c9_buffered_write ⟨false, true, [9], [], false⟩ []).2.2 rfl rfl⟩
